import Mathlib

/-
Verification development for the Bees-Project interaction controller
(src/main.py).  The Python program is shallowly embedded:

* `AudioPlayer` (main.py lines 103-191) is modelled by `APState` with its
  monotonically increasing playback token and stop flag; the guard at the
  end of `_play_thread` (line 170) becomes `completionFires`.
* `InsectController` (main.py lines 213-713) is modelled by the record
  `CState`; every cited method becomes a function `CState → CState`
  (parameterised by an `Env` describing which sound files exist and what
  the random sampler returned).  Timer handles become `Option Nat`
  fields storing the scheduled delay in milliseconds (`none` = cancelled),
  audio completion callbacks become the `AfterCont` tag stored in
  `audioPlaying` and are run by the event `onAudioDone`, mirroring the
  `root.after(0, on_ui)` hand-off in `_play_audio_locked`.
* `random.sample` / `random.shuffle` in `_pick_4_options` are modelled
  relationally: the sampled list is universally quantified subject to
  the postconditions of `random.sample` (right length, no duplicates,
  drawn from the pool), and the shuffle is an arbitrary permutation.
-/

-- ----------------------------
-- Config constants (main.py lines 16-22); millisecond timer arguments
-- are the `int(... * 1000)` values the source passes to `root.after`.
-- ----------------------------

def HOLD_MS : Nat := 2000

def ANSWER_SECONDS : Nat := 10

def FLASH_INTERVAL_MS : Nat := 400

def RESULT_FLASH_MS : Nat := 3000

/-- `INSECT_KEYS = [f"insect{i}" for i in range(1, 9)]` (main.py line 31). -/
def INSECT_KEYS : List String := (List.range 8).map (fun i => "insect" ++ toString (i + 1))

-- ----------------------------
-- AudioPlayer (main.py lines 103-191)
-- ----------------------------

/-- The `AudioPlayer` fields relevant to completion dispatch: the
monotonically increasing `_token` and the `_stop_event` flag. -/
structure APState where
  token : Nat
  stopSet : Bool
deriving DecidableEq

namespace AudioPlayer

/-- `AudioPlayer.stop` (lines 110-127): bumps the token, sets the stop
event and terminates any running process. -/
def stop (s : APState) : APState := { token := s.token + 1, stopSet := true }

/-- `AudioPlayer.play` (lines 129-142).  `ex` is `wav_path.exists()`.
When the file is missing the method prints and returns without touching
any state and without spawning a playback thread (modelled by the
`none` in the second component).  Otherwise, since `INTERRUPT_AUDIO`
is `True`, it first calls `stop`, then clears the stop event, bumps the
token and hands the captured token to the new playback thread. -/
def play (ex : Bool) (s : APState) : APState × Option Nat :=
  if ex then
    let s1 := stop s
    let s2 : APState := { token := s1.token + 1, stopSet := false }
    (s2, some s2.token)
  else (s, none)

/-- The guard in the `finally` block of `_play_thread` (line 170):
`on_done` runs iff the stop event is clear and the thread-captured
token still equals the player token.  Each thread evaluates this
exactly once, so `on_done` is invoked at most once per `play`. -/
def completionFires (s : APState) (tok : Nat) : Bool :=
  !s.stopSet && tok == s.token

end AudioPlayer

/-- The operations that can hit the `AudioPlayer` between a `play` and
the natural completion of its thread: a forced `stop`, or a later
`play` of an existing file (a `play` of a missing file leaves the
player untouched, see `AudioPlayer.play`). -/
inductive APOp where
  | stop : APOp
  | playE : APOp
deriving DecidableEq

def APOp.apply : APOp → APState → APState
  | .stop, s => AudioPlayer.stop s
  | .playE, s => (AudioPlayer.play true s).1

def applyOps (ops : List APOp) (s : APState) : APState :=
  ops.foldl (fun s op => op.apply s) s

-- ----------------------------
-- C1: _pick_4_options (main.py lines 592-596)
-- ----------------------------

/-- `others = [k for k in self.slot_keys if k != correct_key]`
(main.py line 593); the controller is constructed with the eight
`INSECT_KEYS` slots. -/
def others (correct : String) : List String :=
  INSECT_KEYS.filter (fun k => k ≠ correct)

/-- `picks = random.sample(others, 3) + [correct_key]` (main.py line
594) before the `random.shuffle(picks)`; the sampled list is passed in
and constrained in the theorems by the `random.sample` postconditions,
and the shuffle is an arbitrary permutation of this list. -/
def pick_4_options_core (correct : String) (sample3 : List String) : List String :=
  sample3 ++ [correct]

-- ----------------------------
-- InsectController (main.py lines 213-713)
-- ----------------------------

/-- The `after_done` callbacks handed to `_play_audio_locked`.  Each
constructor names the closure passed at one call site; `dispatchCont`
gives their bodies. -/
inductive AfterCont where
  | startAnswerWindow : AfterCont
  | feedbackAfter : AfterCont
  | learnAfter : String → AfterCont
  | setReady : AfterCont
deriving DecidableEq

/-- The environment the controller runs in: which wav files exist on
disk, the name found by `first_existing_ci` for the quiz-complete clip,
and the list `_pick_4_options` returned for a given correct key (the
random draw, treated as an oracle; its distributional postconditions
are established separately on `pick_4_options_core`). -/
structure Env where
  soundExists : String → Bool
  narrationExists : String → Bool
  correctWav : Bool
  incorrectWav : Bool
  quizAbortWav : Bool
  quizCompleteName : Option String
  pickOptions : String → List String

/-- `f"{k}_sound.wav"` (main.py line 84). -/
def soundClip (key : String) : String := key ++ "_sound.wav"

/-- `f"{k}_narration.wav"` (main.py line 85). -/
def narrationClip (key : String) : String := key ++ "_narration.wav"

/-- The mutable fields of `InsectController` (main.py lines 228-249)
plus the two collaborator states it drives: the LED panel (a color per
key) and the audio player abstracted to "what clip is playing and
which `after_done` continuation its natural completion will run"
(`none` after a forced stop, which suppresses the callback — the token
discipline justifying this abstraction is proved on `APState`).
Timer fields hold the scheduled delay in ms, `none` when cancelled.
`pending_after` is the `root.after(0, ...)` queue used by
`_play_audio_locked` when the file is missing. -/
structure CState where
  pressed : Option (String × String)
  input_locked : Bool
  hold_jobs : List (String × Nat)
  hold_fired : List String
  quiz_job : Option Nat
  quiz_hold_fired : Bool
  quiz_active : Bool
  quiz_waiting : Bool
  q_index : Nat
  score : Nat
  answer_timeout_job : Option Nat
  quiz_options : List String
  quiz_sequence : List String
  flash_job : Option Nat
  flash_end_job : Option Nat
  flash_on : Bool
  flash_keys : List String
  flash_map : List (String × String)
  leds : String → String
  statusText : String
  audioPlaying : Option (String × AfterCont)
  pending_after : List AfterCont

/-- `TkLedOutput.set_color` (main.py lines 200-203). -/
def setColor (key color : String) (leds : String → String) : String → String :=
  fun k => if k = key then color else leds k

/-- `TkLedOutput.set_all` (main.py lines 205-207): sets every dot. -/
def setAll (color : String) (_leds : String → String) : String → String :=
  fun _ => color

/-- A `for k, col in pairs: set_color(k, col)` loop. -/
def setColorPairs (pairs : List (String × String)) (leds : String → String) :
    String → String :=
  pairs.foldl (fun l kc => setColor kc.1 kc.2 l) leds

/-- Python `dict` update `m[k] = v` on an association list built with
distinct keys: replaces in place when the key is present, appends
otherwise. -/
def dictInsert (k v : String) (m : List (String × String)) : List (String × String) :=
  if m.any (fun p => p.1 = k) then m.map (fun p => if p.1 = k then (p.1, v) else p)
  else m ++ [(k, v)]

/-- `InsectController.__init__` field values (main.py lines 228-249);
the LED dots start gray (line 772) and the status label "Ready"
(line 803). -/
def initState : CState where
  pressed := none
  input_locked := false
  hold_jobs := []
  hold_fired := []
  quiz_job := none
  quiz_hold_fired := false
  quiz_active := false
  quiz_waiting := false
  q_index := 0
  score := 0
  answer_timeout_job := none
  quiz_options := []
  quiz_sequence := []
  flash_job := none
  flash_end_job := none
  flash_on := false
  flash_keys := []
  flash_map := []
  leds := fun _ => "gray"
  statusText := "Ready"
  audioPlaying := none
  pending_after := []

namespace InsectController

/-- `_stop_flash` (main.py lines 347-360): cancels both flash timers
and clears the phase flag; does not touch the LEDs. -/
def stop_flash (s : CState) : CState :=
  { s with flash_job := none, flash_end_job := none, flash_on := false }

/-- `_end_flash` (main.py lines 362-364): `_stop_flash` then all dots
gray. -/
def end_flash (s : CState) : CState :=
  let s := stop_flash s
  { s with leds := setAll "gray" s.leds }

/-- `_flash_uniform` (main.py lines 366-380): stops any previous
flash, records the keys, paints everything gray, runs the first `tick`
(toggle phase to on, gray background, the given keys in `color`,
reschedule after `interval_ms`) and schedules `_end_flash` after
`duration_ms`. -/
def flash_uniform (keys : List String) (color : String) (interval_ms duration_ms : Nat)
    (s : CState) : CState :=
  let s := stop_flash s
  let s := { s with flash_keys := keys, flash_on := false, leds := setAll "gray" s.leds }
  let s := { s with
    flash_on := true,
    leds := setColorPairs (keys.map (fun k => (k, color))) (setAll "gray" s.leds),
    flash_job := some interval_ms }
  { s with flash_end_job := some duration_ms }

/-- `_flash_multicolor` (main.py lines 382-397): same shape with a
per-key color map. -/
def flash_multicolor (color_map : List (String × String)) (interval_ms duration_ms : Nat)
    (s : CState) : CState :=
  let s := stop_flash s
  let s := { s with flash_map := color_map, flash_on := false, leds := setAll "gray" s.leds }
  let s := { s with
    flash_on := true,
    leds := setColorPairs color_map (setAll "gray" s.leds),
    flash_job := some interval_ms }
  { s with flash_end_job := some duration_ms }

/-- `_play_audio_locked` (main.py lines 323-344).  `ex` is
`wav_path.exists()`.  Missing file: `after_done` is queued with
`root.after(0, ...)` and nothing is locked.  Otherwise the inputs are
locked and the clip starts, replacing any current playback; the
registered continuation runs only on natural completion
(`onAudioDone`). -/
def playAudioLocked (ex : Bool) (clip : String) (after_done : AfterCont) (s : CState) : CState :=
  if ex then
    { s with input_locked := true, audioPlaying := some (clip, after_done) }
  else
    { s with pending_after := s.pending_after ++ [after_done] }

/-- `abort_quiz` (main.py lines 549-589): cancel the answer-timeout
and quiz-hold timers, stop the flash (timers only), force-stop the
audio (suppressing its completion callback), force-unlock, reset the
quiz session fields, report, and optionally play the abort clip. -/
def abort_quiz (env : Env) (s : CState) : CState :=
  let s := { s with answer_timeout_job := none }
  let s := { s with quiz_job := none }
  let s := stop_flash s
  let s := { s with audioPlaying := none }
  let s := { s with input_locked := false }
  let s := { s with
    quiz_active := false, quiz_waiting := false, q_index := 0, score := 0,
    quiz_options := [], quiz_sequence := [], pressed := none }
  let s := { s with statusText := "Quiz: Aborted" }
  if env.quizAbortWav then playAudioLocked true "quiz_abort.wav" AfterCont.setReady s
  else { s with statusText := "Ready" }

/-- `on_abort_pressed` (main.py lines 502-506): works anytime during an
active quiz (no input-lock test), a no-op otherwise. -/
def on_abort_pressed (env : Env) (s : CState) : CState :=
  if !s.quiz_active then s else abort_quiz env s

/-- `_play_question` (main.py lines 598-615): pick this round's
options, clear the waiting flag, and either abort on a missing sound
file or play the cue with `_start_answer_window` as completion. -/
def play_question (env : Env) (s : CState) : CState :=
  if !s.quiz_active then s
  else
    let correct_key := s.quiz_sequence.getD s.q_index ""
    let s := { s with quiz_options := env.pickOptions correct_key, quiz_waiting := false }
    if !(env.soundExists correct_key) then
      abort_quiz env { s with statusText := "Missing: " ++ soundClip correct_key }
    else
      let s := { s with statusText := "Quiz: Question " ++ toString (s.q_index + 1) }
      playAudioLocked true (soundClip correct_key) AfterCont.startAnswerWindow s

/-- `_start_answer_window` (main.py lines 617-625): set the waiting
flag, flash the four options yellow for the whole answer window, and
arm the 10 s timeout. -/
def start_answer_window (s : CState) : CState :=
  if !s.quiz_active then s
  else
    let s := { s with quiz_waiting := true, statusText := "Quiz: Choose an insect" }
    let s := flash_uniform s.quiz_options "yellow" FLASH_INTERVAL_MS (ANSWER_SECONDS * 1000) s
    { s with answer_timeout_job := some (ANSWER_SECONDS * 1000) }

/-- `_feedback` (main.py lines 664-683): abort if the needed feedback
clip is missing, otherwise flash every option red and the correct key
green for `RESULT_FLASH_MS` while playing the clip, whose completion
runs `AfterCont.feedbackAfter` (= `_end_flash` then `_next_or_end`). -/
def feedback (env : Env) (correct : Bool) (s : CState) : CState :=
  let wavEx := if correct then env.correctWav else env.incorrectWav
  let wavName := if correct then "correct.wav" else "incorrect.wav"
  if !wavEx then
    abort_quiz env { s with statusText := "Missing: " ++ wavName }
  else
    let s := { s with statusText := if correct then "Quiz: Correct" else "Quiz: Not correct" }
    let correct_key := s.quiz_sequence.getD s.q_index ""
    let color_map := dictInsert correct_key "green" (s.quiz_options.map (fun k => (k, "red")))
    let s := flash_multicolor color_map 250 RESULT_FLASH_MS s
    playAudioLocked true wavName AfterCont.feedbackAfter s

/-- `_timeout` (main.py lines 627-635): the job fired, so its handle is
cleared first; then, if still waiting in an active quiz, close the
window and give incorrect feedback (the score is untouched). -/
def timeout (env : Env) (s : CState) : CState :=
  let s := { s with answer_timeout_job := none }
  if !s.quiz_waiting || !s.quiz_active then s
  else
    let s := { s with quiz_waiting := false }
    let s := end_flash s
    feedback env false s

/-- `_handle_answer` (main.py lines 637-662): ignore the press unless
waiting in an active quiz, unlocked, and the key is one of the current
options; otherwise close the window, cancel the timeout, stop the
flash, bump the score iff the key equals the round's correct key and
give feedback. -/
def handle_answer (env : Env) (key : String) (s : CState) : CState :=
  if !s.quiz_waiting || !s.quiz_active then s
  else if s.input_locked then s
  else if !(s.quiz_options.contains key) then s
  else
    let s := { s with quiz_waiting := false, answer_timeout_job := none }
    let s := end_flash s
    let correct_key := s.quiz_sequence.getD s.q_index ""
    let correct := key == correct_key
    let s := if correct then { s with score := s.score + 1 } else s
    feedback env correct s

/-- `_end_quiz` (main.py lines 694-713): clear the active/waiting
flags, end the flash (dots gray), drop the pressed input, report, and
optionally play whichever quiz-complete clip `first_existing_ci`
found.  The round index, score, options and sequence are left as they
are. -/
def end_quiz (env : Env) (s : CState) : CState :=
  let s := { s with quiz_active := false, quiz_waiting := false }
  let s := end_flash s
  let s := { s with pressed := none }
  let s := { s with statusText := "Quiz: Complete" }
  match env.quizCompleteName with
  | some n => playAudioLocked true n AfterCont.setReady s
  | none => { s with statusText := "Ready" }

/-- `_next_or_end` (main.py lines 685-692). -/
def next_or_end (env : Env) (s : CState) : CState :=
  if !s.quiz_active then s
  else
    let s := { s with q_index := s.q_index + 1 }
    if s.quiz_sequence.length ≤ s.q_index then end_quiz env s
    else play_question env s

/-- `_play_slot_audio` (main.py lines 444-463): choose the short sound
or the narration (falling back to the short sound when the narration
file is missing); on a missing file just report, otherwise end any
flash, light the key green and play locked with the learn-mode
completion. -/
def play_slot_audio (env : Env) (key : String) (short : Bool) (s : CState) : CState :=
  let wav :=
    if short then (soundClip key, env.soundExists key)
    else if env.narrationExists key then (narrationClip key, true)
    else (soundClip key, env.soundExists key)
  if !wav.2 then { s with statusText := "Missing: " ++ wav.1 }
  else
    let s := end_flash s
    let s := { s with leds := setColor key "green" (setAll "gray" s.leds) }
    let s := { s with statusText := (if short then "Sound: " else "Hold: ") ++ key }
    playAudioLocked true wav.1 (AfterCont.learnAfter key) s

/-- `_insect_hold_fire` (main.py lines 438-442): when the hold timer
fires with the key still pressed, mark the hold as fired and play the
narration. -/
def insect_hold_fire (env : Env) (key : String) (s : CState) : CState :=
  if s.pressed ≠ some ("insect", key) then s
  else
    let s := { s with
      hold_fired := if s.hold_fired.contains key then s.hold_fired else key :: s.hold_fired }
    play_slot_audio env key false s

/-- `on_insect_down` (main.py lines 400-415): refused during a quiz,
while locked, or while another press is outstanding; otherwise records
the press, forgets a previous hold-fired mark, and (re)schedules the
2 s hold timer for the key. -/
def on_insect_down (key : String) (s : CState) : CState :=
  if s.quiz_active then s
  else if s.input_locked then s
  else if s.pressed.isSome then s
  else
    let s := { s with pressed := some ("insect", key) }
    let s := { s with hold_fired := s.hold_fired.filter (fun k => k ≠ key) }
    let s := { s with hold_jobs := s.hold_jobs.filter (fun p => p.1 ≠ key) }
    { s with hold_jobs := s.hold_jobs ++ [(key, HOLD_MS)] }

/-- `_end_press` (main.py lines 318-321). -/
def end_press (press_type key : String) (s : CState) : CState :=
  if s.pressed = some (press_type, key) then { s with pressed := none } else s

/-- `on_insect_up` (main.py lines 417-436): release the press; during
the answer window route to `_handle_answer`; otherwise, outside a quiz
and unlocked, cancel the hold timer and play the short sound unless
the hold already fired. -/
def on_insect_up (env : Env) (key : String) (s : CState) : CState :=
  let s := end_press "insect" key s
  if s.quiz_waiting then handle_answer env key s
  else if s.quiz_active || s.input_locked then s
  else
    let s := { s with hold_jobs := s.hold_jobs.filter (fun p => p.1 ≠ key) }
    if s.hold_fired.contains key then s
    else play_slot_audio env key true s

/-- The bodies of the `after_done` closures (their call sites are named
in `AfterCont`): `_start_answer_window` for a question cue; `_end_flash`
then `_next_or_end` for a feedback clip (main.py lines 679-681);
dot back to gray and status "Ready" for learn-mode audio (lines
459-461); status "Ready" for the optional system clips. -/
def dispatchCont (env : Env) : AfterCont → CState → CState
  | .startAnswerWindow, s => start_answer_window s
  | .feedbackAfter, s => next_or_end env (end_flash s)
  | .learnAfter key, s =>
      { s with leds := setColor key "gray" s.leds, statusText := "Ready" }
  | .setReady, s => { s with statusText := "Ready" }

/-- Natural completion of the current playback: the `on_ui` closure of
`_play_audio_locked` (main.py lines 337-342) marshalled onto the event
loop — unlock, then run the registered `after_done`.  A forced stop
cleared `audioPlaying`, so this is then a no-op, matching the token
check that discards stale completions. -/
def onAudioDone (env : Env) (s : CState) : CState :=
  match s.audioPlaying with
  | none => s
  | some (_, cont) =>
      dispatchCont env cont { s with input_locked := false, audioPlaying := none }

end InsectController

-- ----------------------------
-- Concrete fixtures (used by witnesses and counterexamples)
-- ----------------------------

/-- An environment where every slot sound and narration exists, the two
required feedback clips exist (as `_start_quiz` checks before any round
is played), and the optional clips are absent — which matches the asset
generator `make_sounds.py`, which never produces `quiz_abort.wav`.  The
sampling oracle always returns the first four keys. -/
def envAll : Env where
  soundExists := fun _ => true
  narrationExists := fun _ => true
  correctWav := true
  incorrectWav := true
  quizAbortWav := false
  quizCompleteName := none
  pickOptions := fun _ => ["insect1", "insect2", "insect3", "insect4"]

/-- A mid-quiz state: round 1 of a five-round sequence, its four
options drawn, no audio playing (the question cue has completed). -/
def sQuiz : CState :=
  { initState with
    quiz_active := true
    quiz_sequence := ["insect1", "insect2", "insect3", "insect4", "insect5"]
    quiz_options := ["insect1", "insect2", "insect3", "insect4"] }

/-- `sQuiz` after `_start_answer_window`: awaiting an answer, options
flashing yellow, the 10 s timeout armed. -/
def sAns : CState := InsectController.start_answer_window sQuiz

-- ----------------------------
-- C1: the 4-option answer set
-- ----------------------------

theorem completionFires_of_token_ne (s : APState) (tok : Nat) (h : tok ≠ s.token) :
    AudioPlayer.completionFires s tok = false := by
  simp [AudioPlayer.completionFires, h]

theorem APOp_token_lt (op : APOp) (s : APState) : s.token < (op.apply s).token := by
  cases op
  · simp [APOp.apply, AudioPlayer.stop]
  · simp [APOp.apply, AudioPlayer.stop, AudioPlayer.play]
    omega

theorem applyOps_token_le (ops : List APOp) (s : APState) :
    s.token ≤ (applyOps ops s).token := by
  induction ops generalizing s with
  | nil => simp [applyOps]
  | cons op rest ih =>
      have h1 : s.token < (op.apply s).token := APOp_token_lt op s
      have h2 : (op.apply s).token ≤ (applyOps rest (op.apply s)).token := ih _
      have h3 : applyOps (op :: rest) s = applyOps rest (op.apply s) := rfl
      rw [h3]
      omega

/-- C1: for every quiz round, given the `random.sample` postconditions
on the three distractors (length 3, no duplicates, all drawn from the
7 remaining keys) and an arbitrary shuffle, the presented option list
has exactly 4 distinct members, contains the round's correct key, its
other members all come from the remaining keys, and the sampling pool
has exactly 7 elements. -/
theorem pick_4_options_spec (correct : String) (sample3 picks : List String)
    (hc : correct ∈ INSECT_KEYS)
    (hlen : sample3.length = 3) (hnd : sample3.Nodup)
    (hsub : ∀ x ∈ sample3, x ∈ others correct)
    (hperm : picks.Perm (pick_4_options_core correct sample3)) :
    picks.length = 4 ∧ picks.Nodup ∧ correct ∈ picks
      ∧ (∀ k ∈ picks, k ≠ correct → k ∈ others correct)
      ∧ (others correct).length = 7 := by
  have hne : ∀ x ∈ sample3, x ≠ correct := by
    intro x hx
    have := hsub x hx
    simp [others, List.mem_filter] at this
    exact this.2
  refine ⟨?_, ?_, ?_, ?_, ?_⟩
  · have := hperm.length_eq
    simp [pick_4_options_core, hlen] at this
    omega
  · have hnd2 : (pick_4_options_core correct sample3).Nodup := by
      simp [pick_4_options_core, List.nodup_append, hnd]
      exact fun h => hne correct h rfl
    exact (hperm.nodup_iff).mpr hnd2
  · have : correct ∈ pick_4_options_core correct sample3 := by
      simp [pick_4_options_core]
    exact (hperm.mem_iff).mpr this
  · intro k hk hkc
    have : k ∈ pick_4_options_core correct sample3 := (hperm.mem_iff).mp hk
    simp [pick_4_options_core] at this
    rcases this with h | h
    · exact hsub k h
    · exact absurd h hkc
  · have h7 : ∀ c ∈ INSECT_KEYS, (others c).length = 7 := by decide
    exact h7 correct hc

/-- Witness for C1 at a concrete round: correct key `insect5`,
distractors `insect2, insect7, insect3`, shuffled presentation. -/
theorem pick_4_options_spec_witness :
    (["insect7", "insect5", "insect2", "insect3"] : List String).length = 4
      ∧ (["insect7", "insect5", "insect2", "insect3"] : List String).Nodup
      ∧ "insect5" ∈ (["insect7", "insect5", "insect2", "insect3"] : List String)
      ∧ (∀ k ∈ (["insect7", "insect5", "insect2", "insect3"] : List String),
          k ≠ "insect5" → k ∈ others "insect5")
      ∧ (others "insect5").length = 7 :=
  pick_4_options_spec "insect5" ["insect2", "insect7", "insect3"]
    ["insect7", "insect5", "insect2", "insect3"]
    (by decide) (by decide) (by decide) (by decide) (by decide)

-- ----------------------------
-- C7 / C10: AudioPlayer completion discipline
-- ----------------------------

theorem applyOps_token_lt (ops : List APOp) (s : APState) (hne : ops ≠ []) :
    s.token < (applyOps ops s).token := by
  cases ops with
  | nil => exact absurd rfl hne
  | cons op rest =>
      have h1 : s.token < (op.apply s).token := APOp_token_lt op s
      have h2 : (op.apply s).token ≤ (applyOps rest (op.apply s)).token :=
        applyOps_token_le rest (op.apply s)
      have h3 : applyOps (op :: rest) s = applyOps rest (op.apply s) := rfl
      rw [h3]
      omega

/-- C7: a `play` of an existing file carries a strictly larger token
than the state it started from; the spawned thread holds exactly the
new current token, so with no intervening operation its (single)
completion check succeeds and `on_done` runs; after any non-empty
sequence of further operations (forced stops or later plays of
existing files) the thread's token is stale and its completion is
discarded, so `on_done` never runs for a stopped or superseded
playback. -/
theorem play_on_done_exactly_once_token_discipline (s : APState) (ops : List APOp)
    (hne : ops ≠ []) :
    s.token < (AudioPlayer.play true s).1.token
      ∧ (AudioPlayer.play true s).2 = some (AudioPlayer.play true s).1.token
      ∧ AudioPlayer.completionFires (AudioPlayer.play true s).1
          (AudioPlayer.play true s).1.token = true
      ∧ AudioPlayer.completionFires (applyOps ops (AudioPlayer.play true s).1)
          (AudioPlayer.play true s).1.token = false := by
  refine ⟨?_, rfl, ?_, ?_⟩
  · simp [AudioPlayer.play, AudioPlayer.stop]
    omega
  · simp [AudioPlayer.completionFires, AudioPlayer.play, AudioPlayer.stop]
  · have hlt : (AudioPlayer.play true s).1.token
        < (applyOps ops (AudioPlayer.play true s).1).token :=
      applyOps_token_lt ops _ hne
    exact completionFires_of_token_ne _ _ (by omega)

/-- Witness for C7: a fresh player, one forced stop after the play. -/
theorem play_on_done_exactly_once_token_discipline_witness :
    (⟨0, false⟩ : APState).token < (AudioPlayer.play true ⟨0, false⟩).1.token
      ∧ (AudioPlayer.play true ⟨0, false⟩).2 = some (AudioPlayer.play true ⟨0, false⟩).1.token
      ∧ AudioPlayer.completionFires (AudioPlayer.play true ⟨0, false⟩).1
          (AudioPlayer.play true ⟨0, false⟩).1.token = true
      ∧ AudioPlayer.completionFires (applyOps [APOp.stop] (AudioPlayer.play true ⟨0, false⟩).1)
          (AudioPlayer.play true ⟨0, false⟩).1.token = false :=
  play_on_done_exactly_once_token_discipline ⟨0, false⟩ [APOp.stop] (by decide)

/-- C10: `AudioPlayer.play` on a missing file is a no-op at the
interface: the player state (token and stop flag) is untouched — so a
current playback is neither stopped nor superseded and its own pending
completion is unaffected — and no playback thread is spawned (the
`none`), so the `on_done` passed to this call is never invoked. -/
theorem play_missing_file_noop (s : APState) :
    AudioPlayer.play false s = (s, none)
      ∧ (∀ tok, AudioPlayer.completionFires (AudioPlayer.play false s).1 tok
          = AudioPlayer.completionFires s tok) :=
  ⟨rfl, fun _ => rfl⟩

-- ----------------------------
-- C2: abort from every quiz state
-- ----------------------------

open InsectController

/-- C2: whenever a quiz is active — whatever the waiting flag, the
input lock (audio in flight) or the pending timers — the abort control
is accepted (`on_abort_pressed` performs `abort_quiz`) and leaves
`quiz_active` false with the answer-timeout, quiz-hold and both flash
timers cancelled.  The input lock, force-cleared by the abort, is clear
immediately when no optional abort clip is configured (the repository
asset generator produces none); when one is configured the abort flow
plays it input-locked, and on its natural completion the state is still
idle, unlocked, with all timers cancelled. -/
theorem abort_always_accepted_and_resets (env : Env) (s : CState)
    (h : s.quiz_active = true) :
    on_abort_pressed env s = abort_quiz env s
      ∧ (on_abort_pressed env s).quiz_active = false
      ∧ (on_abort_pressed env s).answer_timeout_job = none
      ∧ (on_abort_pressed env s).quiz_job = none
      ∧ (on_abort_pressed env s).flash_job = none
      ∧ (on_abort_pressed env s).flash_end_job = none
      ∧ (env.quizAbortWav = false → (on_abort_pressed env s).input_locked = false)
      ∧ (onAudioDone env (on_abort_pressed env s)).input_locked = false
      ∧ (onAudioDone env (on_abort_pressed env s)).quiz_active = false
      ∧ (onAudioDone env (on_abort_pressed env s)).answer_timeout_job = none
      ∧ (onAudioDone env (on_abort_pressed env s)).quiz_job = none
      ∧ (onAudioDone env (on_abort_pressed env s)).flash_job = none
      ∧ (onAudioDone env (on_abort_pressed env s)).flash_end_job = none := by
  have hacc : on_abort_pressed env s = abort_quiz env s := by
    simp [on_abort_pressed, h]
  rw [hacc]
  cases hw : env.quizAbortWav <;>
    simp [abort_quiz, stop_flash, playAudioLocked, onAudioDone, dispatchCont, hw]

/-- Witness for C2: abort pressed in the awaiting-answer state (timers
armed, options flashing). -/
theorem abort_always_accepted_and_resets_witness :
    (on_abort_pressed envAll sAns).quiz_active = false
      ∧ (on_abort_pressed envAll sAns).answer_timeout_job = none
      ∧ (on_abort_pressed envAll sAns).quiz_job = none
      ∧ (on_abort_pressed envAll sAns).flash_job = none
      ∧ (on_abort_pressed envAll sAns).flash_end_job = none
      ∧ (onAudioDone envAll (on_abort_pressed envAll sAns)).input_locked = false :=
  ⟨(abort_always_accepted_and_resets envAll sAns (by decide)).2.1,
   (abort_always_accepted_and_resets envAll sAns (by decide)).2.2.1,
   (abort_always_accepted_and_resets envAll sAns (by decide)).2.2.2.1,
   (abort_always_accepted_and_resets envAll sAns (by decide)).2.2.2.2.1,
   (abort_always_accepted_and_resets envAll sAns (by decide)).2.2.2.2.2.1,
   (abort_always_accepted_and_resets envAll sAns (by decide)).2.2.2.2.2.2.2.1⟩

-- ----------------------------
-- C4: invalid input is a no-op
-- ----------------------------

/-- C4: a press handled by `_handle_answer` while the input lock is
set, or whose key is not among the current answer options, leaves the
controller state completely unchanged (so score, round index, waiting
flag and option set are untouched and no feedback of any kind is
triggered). -/
theorem handle_answer_invalid_noop (env : Env) (s : CState) (key : String)
    (h : s.input_locked = true ∨ s.quiz_options.contains key = false) :
    handle_answer env key s = s := by
  have h' : s.input_locked = true ∨ key ∉ s.quiz_options := by
    rcases h with h | h
    · exact Or.inl h
    · exact Or.inr (by simpa using h)
  by_cases hwa : (!s.quiz_waiting || !s.quiz_active) = true
  · simp [handle_answer, hwa]
  · rcases h' with h' | h' <;> simp [handle_answer, hwa, h']

/-- Witness for C4: key `insect7` pressed in the awaiting-answer state
with options `insect1..insect4`. -/
theorem handle_answer_invalid_noop_witness :
    handle_answer envAll "insect7" sAns = sAns :=
  handle_answer_invalid_noop envAll sAns "insect7" (Or.inr (by decide))

-- ----------------------------
-- C3: score increments iff the accepted answer is correct
-- ----------------------------

/-- When the needed feedback clip exists, `_feedback` never changes the
score (it only reports, flashes and starts the clip). -/
theorem feedback_score_eq (env : Env) (b : Bool) (s : CState)
    (hc : env.correctWav = true) (hi : env.incorrectWav = true) :
    (feedback env b s).score = s.score := by
  cases b <;> simp [feedback, hc, hi, flash_multicolor, stop_flash, playAudioLocked]

/-- C3: while awaiting an answer in an active quiz with the input
unlocked, an accepted press of an option key bumps the score by one
exactly when the key equals this round's correct key; a round ended by
the answer timeout (armed for `ANSWER_SECONDS * 1000` ms = 10 s by
`_start_answer_window`) leaves the score unchanged.  The two feedback
clips exist, as `_start_quiz` verifies before any round is played. -/
theorem score_increment_iff_correct (env : Env) (s : CState) (key : String)
    (hw : s.quiz_waiting = true) (ha : s.quiz_active = true)
    (hl : s.input_locked = false) (hk : s.quiz_options.contains key = true)
    (hc : env.correctWav = true) (hi : env.incorrectWav = true) :
    (handle_answer env key s).score
        = (if key = s.quiz_sequence.getD s.q_index "" then s.score + 1 else s.score)
      ∧ (timeout env s).score = s.score
      ∧ (start_answer_window { s with quiz_waiting := false }).answer_timeout_job
          = some (ANSWER_SECONDS * 1000) := by
  refine ⟨?_, ?_, ?_⟩
  · unfold handle_answer
    have hk' : key ∈ s.quiz_options := by simpa using hk
    simp [hw, ha, hl, hk']
    rw [feedback_score_eq env _ _ hc hi]
    by_cases hke : key = s.quiz_sequence[s.q_index]?.getD "" <;>
      simp [hke, end_flash, stop_flash]
  · unfold timeout
    simp [hw, ha]
    rw [feedback_score_eq env _ _ hc hi]
    simp [end_flash, stop_flash]
  · simp [start_answer_window, ha, flash_uniform, stop_flash]

/-- Witness for C3: the correct key `insect1` answered in round 1. -/
theorem score_increment_iff_correct_witness :
    (handle_answer envAll "insect1" sAns).score
        = (if "insect1" = sAns.quiz_sequence.getD sAns.q_index "" then sAns.score + 1
           else sAns.score)
      ∧ (timeout envAll sAns).score = sAns.score
      ∧ (start_answer_window { sAns with quiz_waiting := false }).answer_timeout_job
          = some (ANSWER_SECONDS * 1000) :=
  score_increment_iff_correct envAll sAns "insect1" (by decide) (by decide) (by decide)
    (by decide) (by decide) (by decide)

-- ----------------------------
-- C5: indicator reset on completion vs abort
-- ----------------------------

/-- Counterexample to C5 as stated: abort is pressed in the
awaiting-answer state — where `_start_answer_window` has just painted
the four option keys yellow — and after the (accepted) abort the
`insect1` indicator is still yellow: `abort_quiz` calls `_stop_flash`,
which only cancels the flash timers, and never `set_all("gray")`. -/
theorem abort_leaves_indicator_colors :
    (on_abort_pressed envAll sAns).quiz_active = false
      ∧ (on_abort_pressed envAll sAns).leds "insect1" = "yellow"
      ∧ ¬ (on_abort_pressed envAll sAns).leds "insect1" = "gray" := by
  refine ⟨rfl, rfl, ?_⟩
  decide

/-- C5 amended: after quiz completion every indicator is reset to gray
and no flash timer remains scheduled; after abort no flash timer
remains scheduled either, but the indicators keep whatever colors they
had (abort does not repaint them). -/
theorem indicators_on_end_and_abort (env : Env) (s : CState) :
    (end_quiz env s).flash_job = none
      ∧ (end_quiz env s).flash_end_job = none
      ∧ (∀ k, (end_quiz env s).leds k = "gray")
      ∧ (abort_quiz env s).flash_job = none
      ∧ (abort_quiz env s).flash_end_job = none
      ∧ (abort_quiz env s).leds = s.leds := by
  cases henv : env.quizCompleteName <;> cases haw : env.quizAbortWav <;>
    simp [end_quiz, abort_quiz, end_flash, stop_flash, playAudioLocked, setAll, henv, haw]

-- ----------------------------
-- C6: session fields on end vs abort
-- ----------------------------

/-- A state at the moment `_end_quiz` runs: all five rounds played,
three answered correctly, the last round's options still stored. -/
def sEnd : CState := { sQuiz with q_index := 5, score := 3 }

/-- Counterexample to C6 as stated: `_end_quiz` leaves the round index,
the running score, the answer-option set and the round sequence at
their final values instead of destroying/resetting them. -/
theorem end_quiz_retains_round_data :
    (end_quiz envAll sEnd).score = 3
      ∧ ¬ (end_quiz envAll sEnd).score = 0
      ∧ (end_quiz envAll sEnd).q_index = 5
      ∧ (end_quiz envAll sEnd).quiz_options = ["insect1", "insect2", "insect3", "insect4"]
      ∧ ¬ (end_quiz envAll sEnd).quiz_options = []
      ∧ (end_quiz envAll sEnd).quiz_sequence = sEnd.quiz_sequence := by
  refine ⟨rfl, ?_, rfl, rfl, ?_, rfl⟩ <;> decide

/-- C6 amended: on abort every quiz session field is reset (flags,
index, score, options, sequence, pressed input and all quiz timers);
on quiz end only the active flag, the waiting flag, the pressed input
and the flash timers are reset, while round index, score, options and
sequence retain their final values. -/
theorem session_fields_on_abort_and_end (env : Env) (s : CState) :
    (abort_quiz env s).quiz_active = false
      ∧ (abort_quiz env s).quiz_waiting = false
      ∧ (abort_quiz env s).q_index = 0
      ∧ (abort_quiz env s).score = 0
      ∧ (abort_quiz env s).quiz_options = []
      ∧ (abort_quiz env s).quiz_sequence = []
      ∧ (abort_quiz env s).pressed = none
      ∧ (abort_quiz env s).answer_timeout_job = none
      ∧ (abort_quiz env s).quiz_job = none
      ∧ (abort_quiz env s).flash_job = none
      ∧ (abort_quiz env s).flash_end_job = none
      ∧ (end_quiz env s).quiz_active = false
      ∧ (end_quiz env s).quiz_waiting = false
      ∧ (end_quiz env s).pressed = none
      ∧ (end_quiz env s).flash_job = none
      ∧ (end_quiz env s).flash_end_job = none
      ∧ (end_quiz env s).q_index = s.q_index
      ∧ (end_quiz env s).score = s.score
      ∧ (end_quiz env s).quiz_options = s.quiz_options
      ∧ (end_quiz env s).quiz_sequence = s.quiz_sequence := by
  cases henv : env.quizCompleteName <;> cases haw : env.quizAbortWav <;>
    simp [end_quiz, abort_quiz, end_flash, stop_flash, playAudioLocked, henv, haw]

-- ----------------------------
-- C9: learn-mode hold plays the narration input-locked
-- ----------------------------

/-- C9: in learn mode (no quiz active), when the 2 s hold timer
(scheduled by `on_insect_down` with delay `HOLD_MS`) fires with the key
still pressed, the controller starts that slot's narration clip —
falling back to the slot's short clip when the narration file is
missing — with the input locked, and the lock is released by the
playback's natural completion. -/
theorem hold_fires_narration_and_locks (env : Env) (s : CState) (key : String)
    (hq : s.quiz_active = false) (hl : s.input_locked = false)
    (hp : s.pressed = some ("insect", key))
    (hex : env.narrationExists key = true ∨ env.soundExists key = true) :
    (insect_hold_fire env key s).audioPlaying
        = some ((if env.narrationExists key then narrationClip key else soundClip key),
            AfterCont.learnAfter key)
      ∧ (insect_hold_fire env key s).input_locked = true
      ∧ (onAudioDone env (insect_hold_fire env key s)).input_locked = false
      ∧ (on_insect_down key { s with pressed := none }).hold_jobs
          = ({ s with pressed := none } : CState).hold_jobs.filter (fun p => p.1 ≠ key)
              ++ [(key, HOLD_MS)] := by
  have hgoal4 : (on_insect_down key { s with pressed := none }).hold_jobs
      = ({ s with pressed := none } : CState).hold_jobs.filter (fun p => p.1 ≠ key)
          ++ [(key, HOLD_MS)] := by
    simp [on_insect_down, hq, hl]
  refine ⟨?_, ?_, ?_, hgoal4⟩ <;>
  · unfold insect_hold_fire
    simp only [hp]
    cases hn : env.narrationExists key
    · rcases hex with hx | hx
      · rw [hn] at hx; cases hx
      · simp [play_slot_audio, hn, hx, end_flash, stop_flash, playAudioLocked, onAudioDone,
          dispatchCont]
    · simp [play_slot_audio, hn, end_flash, stop_flash, playAudioLocked, onAudioDone,
        dispatchCont]

/-- A learn-mode state with `insect3` pressed and held. -/
def sHold : CState := { initState with pressed := some ("insect", "insect3") }

/-- Witness for C9: the hold timer fires on `insect3`, whose narration
file exists. -/
theorem hold_fires_narration_and_locks_witness :
    (insect_hold_fire envAll "insect3" sHold).audioPlaying
        = some ((if envAll.narrationExists "insect3" then narrationClip "insect3"
                 else soundClip "insect3"),
            AfterCont.learnAfter "insect3")
      ∧ (insect_hold_fire envAll "insect3" sHold).input_locked = true
      ∧ (onAudioDone envAll (insect_hold_fire envAll "insect3" sHold)).input_locked = false
      ∧ (on_insect_down "insect3" { sHold with pressed := none }).hold_jobs
          = ({ sHold with pressed := none } : CState).hold_jobs.filter (fun p => p.1 ≠ "insect3")
              ++ [("insect3", HOLD_MS)] :=
  hold_fires_narration_and_locks envAll sHold "insect3" rfl rfl rfl (Or.inl rfl)

-- ----------------------------
-- C8: feedback flash and round advance
-- ----------------------------

theorem setColorPairs_of_not_mem (pairs : List (String × String)) (leds : String → String)
    (k : String) (hk : k ∉ pairs.map Prod.fst) :
    setColorPairs pairs leds k = leds k := by
  induction pairs generalizing leds with
  | nil => rfl
  | cons p rest ih =>
      have hstep : setColorPairs (p :: rest) leds
          = setColorPairs rest (setColor p.1 p.2 leds) := rfl
      rw [hstep]
      have hk1 : k ≠ p.1 ∧ k ∉ rest.map Prod.fst := by
        simpa [not_or] using hk
      rw [ih _ hk1.2]
      simp [setColor, hk1.1]

theorem setColorPairs_of_mem (pairs : List (String × String)) (leds : String → String)
    (k c : String) (hnd : (pairs.map Prod.fst).Nodup) (hmem : (k, c) ∈ pairs) :
    setColorPairs pairs leds k = c := by
  induction pairs generalizing leds with
  | nil => cases hmem
  | cons p rest ih =>
      have hstep : setColorPairs (p :: rest) leds
          = setColorPairs rest (setColor p.1 p.2 leds) := rfl
      rw [hstep]
      have hnd' : p.1 ∉ rest.map Prod.fst ∧ (rest.map Prod.fst).Nodup := by
        simpa [List.nodup_cons] using hnd
      rcases List.mem_cons.mp hmem with he | hm
      · have hp : p = (k, c) := he.symm
        subst hp
        rw [setColorPairs_of_not_mem rest _ k hnd'.1]
        simp [setColor]
      · exact ih _ hnd'.2 hm

theorem dictInsert_red_any (options : List String) (ck : String) (h : ck ∈ options) :
    ((options.map (fun j => (j, "red"))).any (fun p => p.1 = ck)) = true := by
  simp [List.any_eq_true]
  exact h

theorem dictInsert_keys_of_any (k v : String) (m : List (String × String))
    (h : (m.any (fun p => p.1 = k)) = true) :
    (dictInsert k v m).map Prod.fst = m.map Prod.fst := by
  simp only [dictInsert, h, if_pos, List.map_map]
  apply List.map_congr_left
  intro p _
  by_cases hp : p.1 = k <;> simp [hp]

theorem dictInsert_mem_self (k v : String) (m : List (String × String))
    (h : (m.any (fun p => p.1 = k)) = true) :
    (k, v) ∈ dictInsert k v m := by
  rcases List.any_eq_true.mp h with ⟨p, hp, hpk⟩
  have hpk' : p.1 = k := by simpa using hpk
  simp only [dictInsert, h, if_pos]
  exact List.mem_map.mpr ⟨p, hp, by simp [hpk']⟩

theorem dictInsert_mem_other (k v : String) (m : List (String × String))
    (q : String × String) (hq : q ∈ m) (hne : q.1 ≠ k) :
    q ∈ dictInsert k v m := by
  unfold dictInsert
  by_cases h : (m.any (fun p => p.1 = k)) = true
  · simp only [h, if_pos]
    exact List.mem_map.mpr ⟨q, hq, by simp [hne]⟩
  · simp only [h]
    simp
    exact Or.inl hq

/-- Looking up the correct key in the `_feedback` color map after the
flash tick paints it: the map is every option red with the correct key
overwritten green. -/
theorem cmap_lookup_green (options : List String) (ck : String) (leds : String → String)
    (hnd : options.Nodup) (h : ck ∈ options) :
    setColorPairs (dictInsert ck "green" (options.map (fun j => (j, "red")))) leds ck
      = "green" := by
  have hany := dictInsert_red_any options ck h
  apply setColorPairs_of_mem
  · rw [dictInsert_keys_of_any _ _ _ hany]
    simpa [List.map_map, Function.comp_def] using hnd
  · exact dictInsert_mem_self _ _ _ hany

/-- Looking up any other option key in the `_feedback` color map. -/
theorem cmap_lookup_red (options : List String) (ck k : String) (leds : String → String)
    (hnd : options.Nodup) (hck : ck ∈ options) (hk : k ∈ options) (hne : k ≠ ck) :
    setColorPairs (dictInsert ck "green" (options.map (fun j => (j, "red")))) leds k
      = "red" := by
  have hany := dictInsert_red_any options ck hck
  apply setColorPairs_of_mem
  · rw [dictInsert_keys_of_any _ _ _ hany]
    simpa [List.map_map, Function.comp_def] using hnd
  · exact dictInsert_mem_other _ _ _ (k, "red") (List.mem_map.mpr ⟨k, hk, rfl⟩) hne

/-- `_next_or_end` in an active quiz leaves the round index at the
incremented value: `_end_quiz` does not touch it, and `_play_question`
does not either as long as the next round's sound file exists (which
`_start_quiz` guaranteed by sampling the sequence from slots with
existing sound files; a missing file would instead abort and zero the
index). -/
theorem next_or_end_q_index (env : Env) (s : CState) (ha : s.quiz_active = true)
    (hseq : ∀ k ∈ s.quiz_sequence, env.soundExists k = true) :
    (next_or_end env s).q_index = s.q_index + 1 := by
  unfold next_or_end
  simp only [ha, Bool.not_true, Bool.false_eq_true, if_false]
  by_cases hlen : s.quiz_sequence.length ≤ s.q_index + 1
  · simp only [hlen, if_pos]
    cases henv : env.quizCompleteName <;>
      simp [end_quiz, end_flash, stop_flash, playAudioLocked, henv]
  · simp only [hlen, if_neg, if_false]
    have hidx : s.q_index + 1 < s.quiz_sequence.length := by omega
    have hmem : s.quiz_sequence[s.q_index + 1]?.getD "" ∈ s.quiz_sequence := by
      rw [List.getElem?_eq_getElem hidx]
      simp only [Option.getD_some]
      exact List.getElem_mem hidx
    have hex := hseq _ hmem
    simp [play_question, ha, hex, playAudioLocked]

/-- Natural completion of a feedback clip advances the round index by
one (via `_end_flash` then `_next_or_end`). -/
theorem onAudioDone_feedback_q_index (env : Env) (s : CState) (wav : String)
    (hap : s.audioPlaying = some (wav, AfterCont.feedbackAfter))
    (ha : s.quiz_active = true)
    (hseq : ∀ k ∈ s.quiz_sequence, env.soundExists k = true) :
    (onAudioDone env s).q_index = s.q_index + 1 := by
  unfold onAudioDone
  rw [hap]
  simp only [dispatchCont]
  have h1 := next_or_end_q_index env
      (end_flash { s with input_locked := false, audioPlaying := none })
      (by simp [end_flash, stop_flash, ha])
      (by simp only [end_flash, stop_flash]; exact hseq)
  simpa [end_flash, stop_flash] using h1

/-- The state right after the round-1 correct answer `insect1` is
accepted from the awaiting-answer state: `_feedback` has started — the
result flash is scheduled for 3 s and `correct.wav` is playing with the
advance continuation registered. -/
def sFb : CState := handle_answer envAll "insect1" sAns

/-- Counterexample to C8 as stated: with the 3 s result-flash end timer
still scheduled (so the flash duration has not completed), the natural
completion of the feedback clip alone already advances the quiz from
round 1 to round 2 — the advance is gated only on the clip, and its
callback cuts the flash short, not the other way around. -/
theorem advance_occurs_before_flash_end :
    sFb.flash_end_job = some RESULT_FLASH_MS
      ∧ sFb.audioPlaying = some ("correct.wav", AfterCont.feedbackAfter)
      ∧ sFb.q_index = 0
      ∧ (onAudioDone envAll sFb).q_index = 1 := by
  exact ⟨rfl, rfl, rfl, rfl⟩

/-- C8 amended: `_feedback` flashes the correct key green and every
other option key red, schedules the flash end for the fixed 3 s
(`RESULT_FLASH_MS`) while the correct/incorrect clip plays, and
advances to the next round (or quiz completion) when the feedback clip
completes — without waiting for the 3 s flash duration: the clip's
completion callback ends the flash early, and the flash-end timer alone
never advances the round. -/
theorem feedback_flash_then_advance_on_clip (env : Env) (s : CState) (b : Bool)
    (hc : env.correctWav = true) (hi : env.incorrectWav = true)
    (ha : s.quiz_active = true) (hnd : s.quiz_options.Nodup)
    (hck : s.quiz_sequence[s.q_index]?.getD "" ∈ s.quiz_options)
    (hseq : ∀ k ∈ s.quiz_sequence, env.soundExists k = true) :
    (feedback env b s).flash_end_job = some RESULT_FLASH_MS
      ∧ (feedback env b s).flash_job = some 250
      ∧ (feedback env b s).audioPlaying
          = some ((if b then "correct.wav" else "incorrect.wav"), AfterCont.feedbackAfter)
      ∧ (feedback env b s).leds (s.quiz_sequence[s.q_index]?.getD "") = "green"
      ∧ (∀ k ∈ s.quiz_options, ¬ k = s.quiz_sequence[s.q_index]?.getD ""
          → (feedback env b s).leds k = "red")
      ∧ (onAudioDone env (feedback env b s)).q_index = s.q_index + 1
      ∧ (end_flash (feedback env b s)).q_index = s.q_index := by
  have hfb : feedback env b s
      = playAudioLocked true (if b then "correct.wav" else "incorrect.wav")
          AfterCont.feedbackAfter
          (flash_multicolor
            (dictInsert (s.quiz_sequence[s.q_index]?.getD "") "green"
              (s.quiz_options.map (fun k => (k, "red"))))
            250 RESULT_FLASH_MS
            { s with statusText := if b then "Quiz: Correct" else "Quiz: Not correct" }) := by
    cases b <;> simp [feedback, hc, hi]
  have hap : (feedback env b s).audioPlaying
      = some ((if b then "correct.wav" else "incorrect.wav"), AfterCont.feedbackAfter) := by
    rw [hfb]; simp [playAudioLocked, flash_multicolor, stop_flash]
  have hact : (feedback env b s).quiz_active = true := by
    rw [hfb]; simp [playAudioLocked, flash_multicolor, stop_flash, ha]
  have hqi : (feedback env b s).q_index = s.q_index := by
    rw [hfb]; simp [playAudioLocked, flash_multicolor, stop_flash]
  have hsq : (feedback env b s).quiz_sequence = s.quiz_sequence := by
    rw [hfb]; simp [playAudioLocked, flash_multicolor, stop_flash]
  have hadv : (onAudioDone env (feedback env b s)).q_index = s.q_index + 1 := by
    have h := onAudioDone_feedback_q_index env (feedback env b s)
      (if b then "correct.wav" else "incorrect.wav") hap hact (by rw [hsq]; exact hseq)
    rw [h, hqi]
  refine ⟨?_, ?_, hap, ?_, ?_, hadv, ?_⟩
  · rw [hfb]; simp [playAudioLocked, flash_multicolor, stop_flash]
  · rw [hfb]; simp [playAudioLocked, flash_multicolor, stop_flash]
  · rw [hfb]
    simp [playAudioLocked, flash_multicolor, stop_flash]
    exact cmap_lookup_green s.quiz_options _ _ hnd hck
  · intro k hk hne
    rw [hfb]
    simp [playAudioLocked, flash_multicolor, stop_flash]
    exact cmap_lookup_red s.quiz_options _ k _ hnd hck hk hne
  · simp [end_flash, stop_flash]
    exact hqi

/-- Witness for the amended C8 at round 1 of the concrete quiz. -/
theorem feedback_flash_then_advance_on_clip_witness :
    (feedback envAll true sQuiz).flash_end_job = some RESULT_FLASH_MS
      ∧ (feedback envAll true sQuiz).flash_job = some 250
      ∧ (feedback envAll true sQuiz).audioPlaying
          = some ((if true then "correct.wav" else "incorrect.wav"), AfterCont.feedbackAfter)
      ∧ (feedback envAll true sQuiz).leds (sQuiz.quiz_sequence[sQuiz.q_index]?.getD "")
          = "green"
      ∧ (∀ k ∈ sQuiz.quiz_options, ¬ k = sQuiz.quiz_sequence[sQuiz.q_index]?.getD ""
          → (feedback envAll true sQuiz).leds k = "red")
      ∧ (onAudioDone envAll (feedback envAll true sQuiz)).q_index = sQuiz.q_index + 1
      ∧ (end_flash (feedback envAll true sQuiz)).q_index = sQuiz.q_index :=
  feedback_flash_then_advance_on_clip envAll sQuiz true rfl rfl rfl (by decide) (by decide)
    (by decide)
